import Mathlib

/-!
# Execve capture probes of the tarian node agent

Shallow embedding of the two tracepoint handlers

* `enter_execve`  (pkg/nodeagent/ebpf/c/capture_exec.bpf.c, the minimal variant)
* `ebpf_execve`   (pkg/nodeagent/ebpf/exec2/index.bpf.c, the extended variant)

A handler is a pure function of the outcomes of the kernel helpers it calls
(collected in an environment `Env`) and of the tracepoint context.  It returns
its return value, the ordered log of helper calls and record stores it
performed, and the record it made visible on the ring buffer, if any.

Conventions.
* A byte array is a function from index to byte (`Buf`); only the indices
  below the declared capacity are meaningful.
* Addresses are natural numbers below `2^64`; pointer arithmetic wraps.
* The kernel helpers are not part of the repository.  Their contract is
  modelled once, below: a guarded read either succeeds (return 0, destination
  filled) or fails (negative errno, destination zero-filled by the helper).
-/

namespace Tarian

/-- Byte array, as a map from index to byte value. -/
abbrev Buf := Nat → Nat

/-- The all-zero byte array. -/
def zeroBuf : Buf := fun _ => 0

/-- Overwrite the first `size` bytes of `dst` with those of `data`. -/
def Buf.write (dst : Buf) (size : Nat) (data : Buf) : Buf :=
  fun i => if i < size then data i else dst i

/-- Errno reported by a faulting guarded read. -/
def EFAULT : Int := 14

/-- Pointer arithmetic on 64-bit addresses. -/
def ptr_add (p off : Nat) : Nat := (p + off) % 2 ^ 64

/-- Places a handler writes to: fields of the reserved record, or locals. -/
inductive Loc
  | pid | tgid | uid | gid | syscall_nr | comm | cwd | filename | binary_filepath
  | user_comm (j : Nat)
  | fs | dentry | filn
  deriving DecidableEq

/-- Whether a location lies inside the reserved ring-buffer record. -/
def Loc.in_record : Loc → Bool
  | .fs => false
  | .dentry => false
  | .filn => false
  | _ => true

/-- The guarded-read helpers used by the handlers. -/
inductive Helper
  | bpf_probe_read | bpf_probe_read_kernel | bpf_probe_read_user | bpf_probe_read_user_str
  deriving DecidableEq

/-- Source operand of a guarded read. -/
inductive Src
  | zero
  | addr (a : Nat)
  deriving DecidableEq

/-- One observable step of a handler. -/
inductive Op
  | get_current_pid_tgid
  | get_current_uid_gid
  | get_current_task
  | get_current_comm (dst : Loc) (size : Nat)
  | ringbuf_reserve (ok : Bool)
  | ringbuf_submit
  | ringbuf_discard
  | store (dst : Loc)
  | read (h : Helper) (dst : Loc) (size : Nat) (src : Src) (ret : Int)
  | printk
  deriving DecidableEq

/-- The step releases the reserved slot (commit or discard). -/
def Op.is_release : Op → Bool
  | .ringbuf_submit => true
  | .ringbuf_discard => true
  | _ => false

/-- The step writes into the reserved record. -/
def Op.writes_record : Op → Bool
  | .get_current_comm dst _ => dst.in_record
  | .store dst => dst.in_record
  | .read _ dst _ _ _ => dst.in_record
  | _ => false

/-- The location a step writes to, if any. -/
def Op.dst : Op → Option Loc
  | .get_current_comm dst _ => some dst
  | .store dst => some dst
  | .read _ dst _ _ _ => some dst
  | _ => none

/-- What one handler invocation did. -/
structure Result (R : Type) where
  ret : Int
  ops : List Op
  committed : Option R

/-- Kernel contract of `bpf_probe_read`, `bpf_probe_read_kernel` and
`bpf_probe_read_user` on a byte destination: `src` is what the memory holds at
the source address (`none` when the access faults).  On a fault the helper
zero-fills the destination and returns a negative errno. -/
def bpf_probe_read (dst : Buf) (size : Nat) (src : Option Buf) : Int × Buf :=
  match src with
  | some data => (0, dst.write size data)
  | none => (-EFAULT, dst.write size zeroBuf)

/-- The same helpers reading one 8-byte pointer into a pointer variable; a
fault leaves the variable zeroed. -/
def bpf_probe_read_ptr (src : Option Nat) : Int × Nat :=
  match src with
  | some p => (0, p)
  | none => (-EFAULT, 0)

/-- Kernel contract of `bpf_probe_read_user_str`: `src` is the NUL-terminated
string found at the source address (its bytes before the NUL), `none` when the
access faults.  At most `size - 1` bytes are copied and a NUL is appended;
the return value is the number of bytes written.  On a fault the destination
is zero-filled and a negative errno is returned. -/
def bpf_probe_read_user_str (dst : Buf) (size : Nat) (src : Option (List Nat)) : Int × Buf :=
  if size = 0 then (0, dst) else
  match src with
  | some s =>
    let n := min s.length (size - 1)
    (((n + 1 : Nat) : Int), fun i => if i < n then s.getD i 0 else if i = n then 0 else dst i)
  | none => (-EFAULT, dst.write size zeroBuf)

/-- Kernel contract of `bpf_get_current_comm`: the task name, NUL-padded to
`size` bytes. -/
def bpf_get_current_comm (dst : Buf) (size : Nat) (comm : Buf) : Buf :=
  dst.write size comm

/-! ## Minimal variant: capture_exec.bpf.c -/

namespace capture_exec

def ARGLEN : Nat := 32
def ARGSIZE : Nat := 1024

/-- The record `struct event`. -/
structure event where
  pid : Nat
  comm : Buf
  filename : Buf

/-- The tracepoint context `struct trace_event_execve`. -/
structure trace_event_execve where
  common_type : Nat
  common_flags : Nat
  common_preempt_count : Nat
  common_pid : Int
  syscall_nr : Int
  pad : Nat
  filename : Nat
  argv : Nat
  envp : Nat

/-- The read-only, zero-initialised template `static char zero[ARGSIZE]`. -/
def zero : Buf := fun _ => 0

/-- Outcomes of the helpers called by `enter_execve`. -/
structure Env where
  /-- Value of bpf_get_current_pid_tgid. -/
  pid_tgid : Nat
  /-- Result of bpf_ringbuf_reserve: the slot with its stale contents, or failure. -/
  reserve : Option event
  /-- Whether the kernel read of the `zero` template succeeds. -/
  zero_readable : Bool
  /-- Task name delivered by bpf_get_current_comm. -/
  comm : Buf
  /-- NUL-terminated string readable at a user address, if any. -/
  user_str : Nat → Option (List Nat)

/-- The handler `enter_execve`. -/
def enter_execve (env : Env) (trace_evt : trace_event_execve) : Result event :=
  let id := env.pid_tgid % 2 ^ 64
  let tgid := (id >>> 32) % 2 ^ 32
  let ops := [Op.get_current_pid_tgid]
  match env.reserve with
  | none => ⟨0, ops ++ [.ringbuf_reserve false], none⟩
  | some evt =>
    let ops := ops ++ [.ringbuf_reserve true]
    let r := bpf_probe_read evt.filename ARGSIZE (if env.zero_readable then some zero else none)
    let ret := r.1
    let evt : event := ⟨evt.pid, evt.comm, r.2⟩
    let ops := ops ++ [.read .bpf_probe_read_kernel .filename ARGSIZE .zero ret]
    if ret ≠ 0 then
      ⟨1, ops ++ [.printk, .ringbuf_discard], none⟩
    else
      let evt : event := ⟨tgid, evt.comm, evt.filename⟩
      let ops := ops ++ [.store .pid]
      let evt : event := ⟨evt.pid, bpf_get_current_comm evt.comm 80 env.comm, evt.filename⟩
      let ops := ops ++ [.get_current_comm .comm 80]
      let r := bpf_probe_read_user_str evt.filename ARGSIZE (env.user_str trace_evt.filename)
      let ret := r.1
      let evt : event := ⟨evt.pid, evt.comm, r.2⟩
      let ops := ops ++
        [.read .bpf_probe_read_user_str .filename ARGSIZE (.addr trace_evt.filename) ret]
      if ret < 0 then
        ⟨1, ops ++ [.printk, .ringbuf_discard], none⟩
      else
        ⟨0, ops ++ [.ringbuf_submit], some evt⟩

end capture_exec

/-! ## Extended variant: exec2/index.bpf.c -/

namespace exec2

/-- The record `struct event_data`. -/
structure event_data where
  pid : Nat
  tgid : Nat
  uid : Nat
  gid : Nat
  syscall_nr : Int
  comm : Buf
  cwd : Buf
  binary_filepath : Buf
  user_comm : Nat → Buf

/-- The tracepoint context `struct execve_struct`. -/
structure execve_struct where
  common_type : Nat
  common_flags : Nat
  common_preempt_count : Nat
  common_pid : Int
  syscall_nr : Int
  filename : Nat
  argv : Nat
  envp : Nat

/-- Outcomes of the helpers called by `ebpf_execve`, and the kernel structure
offsets that `vmlinux.h` supplies. -/
structure Env where
  /-- Result of bpf_ringbuf_reserve: the slot with its stale contents, or failure. -/
  reserve : Option event_data
  /-- Value of bpf_get_current_pid_tgid. -/
  pid_tgid : Nat
  /-- Value of bpf_get_current_uid_gid. -/
  uid_gid : Nat
  /-- Value of bpf_get_current_task. -/
  task : Nat
  /-- Task name delivered by bpf_get_current_comm. -/
  comm : Buf
  /-- Bytes readable by bpf_probe_read_user at an address, for a size. -/
  user_mem : Nat → Nat → Option Buf
  /-- Pointer readable by bpf_probe_read_kernel at an address. -/
  kernel_ptr : Nat → Option Nat
  /-- Pointer readable by bpf_probe_read at an address. -/
  compat_ptr : Nat → Option Nat
  /-- Bytes readable by bpf_probe_read at an address, for a size. -/
  compat_mem : Nat → Nat → Option Buf
  /-- Byte offset of `fs` in `struct task_struct`. -/
  off_fs : Nat
  /-- Byte offset of `pwd.dentry` in `struct fs_struct`. -/
  off_pwd_dentry : Nat
  /-- Byte offset of `d_iname` in `struct dentry`. -/
  off_d_iname : Nat

/-- The argv loop of `ebpf_execve`, entered with the current values of `i` and
`j` and the current contents of the `user_comm` table; returns the table and
the steps performed.  `ctx->argv` has type `__u8 *`, so `&ctx->argv[i]` is
the address `argv + i`. -/
def argv_loop (env : Env) (ctx : execve_struct) (i j : Nat) (user_comm : Nat → Buf) :
    (Nat → Buf) × List Op :=
  if i ≤ 256 then
    let a := ptr_add ctx.argv i
    let p := bpf_probe_read_ptr (env.compat_ptr a)
    let filn := p.2
    let r := bpf_probe_read (user_comm j) 256 (env.compat_mem filn 256)
    let rs := r.1
    let user_comm := Function.update user_comm j r.2
    let ops := [Op.read .bpf_probe_read .filn 8 (.addr a) p.1,
                Op.read .bpf_probe_read (.user_comm j) 256 (.addr filn) rs]
    if rs ≠ 0 then
      (user_comm, ops)
    else
      let rest := argv_loop env ctx (i + 8) (j + 1) user_comm
      (rest.1, ops ++ rest.2)
  else
    (user_comm, [])
termination_by 257 - i

/-- The handler `ebpf_execve`. -/
def ebpf_execve (env : Env) (ctx : execve_struct) : Result event_data :=
  match env.reserve with
  | none => ⟨0, [.ringbuf_reserve false], none⟩
  | some ed =>
    let ops := [Op.ringbuf_reserve true]
    let syscall_nr := ctx.syscall_nr
    let ops := ops ++ [.store .syscall_nr]
    let rf := bpf_probe_read ed.binary_filepath 256 (env.user_mem ctx.filename 256)
    let binary_filepath := rf.2
    let ops := ops ++ [.read .bpf_probe_read_user .binary_filepath 256 (.addr ctx.filename) rf.1]
    let comm := bpf_get_current_comm ed.comm 16 env.comm
    let ops := ops ++ [.get_current_comm .comm 16]
    let pid_tgid := env.pid_tgid % 2 ^ 64
    let ops := ops ++ [.get_current_pid_tgid]
    let pid := (pid_tgid >>> 32) % 2 ^ 32
    let tgid := pid_tgid % 2 ^ 32
    let ops := ops ++ [.store .pid, .store .tgid]
    let uid_gid := env.uid_gid % 2 ^ 64
    let ops := ops ++ [.get_current_uid_gid]
    let uid := (uid_gid >>> 32) % 2 ^ 32
    let gid := uid_gid % 2 ^ 32
    let ops := ops ++ [.store .uid, .store .gid]
    let task := env.task % 2 ^ 64
    let ops := ops ++ [.get_current_task]
    let a_fs := ptr_add task env.off_fs
    let r1 := bpf_probe_read_ptr (env.kernel_ptr a_fs)
    let fs := r1.2
    let ops := ops ++ [.read .bpf_probe_read_kernel .fs 8 (.addr a_fs) r1.1]
    let a_dentry := ptr_add fs env.off_pwd_dentry
    let r2 := bpf_probe_read_ptr (env.compat_ptr a_dentry)
    let dentry := r2.2
    let ops := ops ++ [.read .bpf_probe_read .dentry 8 (.addr a_dentry) r2.1]
    let a_iname := ptr_add dentry env.off_d_iname
    let r3 := bpf_probe_read ed.cwd 32 (env.compat_mem a_iname 32)
    let cwd := r3.2
    let ops := ops ++ [.read .bpf_probe_read .cwd 32 (.addr a_iname) r3.1]
    let loop := argv_loop env ctx 0 0 ed.user_comm
    let ops := ops ++ loop.2
    let ed : event_data :=
      ⟨pid, tgid, uid, gid, syscall_nr, comm, cwd, binary_filepath, loop.1⟩
    ⟨0, ops ++ [.ringbuf_submit], some ed⟩

end exec2

/-! ## Observations on the log of a run -/

/-- The pointer reads into the local `filn`, in order: source address and
return value of each. -/
def filn_reads (ops : List Op) : List (Nat × Int) :=
  ops.filterMap fun op =>
    match op with
    | .read _ .filn _ (.addr a) ret => some (a, ret)
    | _ => none

/-- The copies into slots of the `user_comm` table, in order: slot index,
source address and return value of each. -/
def slot_copies (ops : List Op) : List (Nat × Nat × Int) :=
  ops.filterMap fun op =>
    match op with
    | .read _ (.user_comm j) _ (.addr a) ret => some (j, a, ret)
    | _ => none

/-- The reads of the current-directory walk, in order. -/
def cwd_reads (ops : List Op) : List Op :=
  ops.filter fun op =>
    match op with
    | .read _ .fs _ _ _ => true
    | .read _ .dentry _ _ _ => true
    | .read _ .cwd _ _ _ => true
    | _ => false

/-! ## Closed form of the argv loop

The quantities below name what each iteration of the loop reads and returns,
so that a run can be described without unfolding the recursion. -/

section loop_model
open exec2


/-- Return value of the pointer read of iteration `k` of the argv loop. -/
def ptr_ret_at (env : Env) (ctx : execve_struct) (k : Nat) : Int :=
  (bpf_probe_read_ptr (env.compat_ptr (ptr_add ctx.argv (8 * k)))).1

/-- Value of the local `filn` after the pointer read of iteration `k`. -/
def filn_at (env : Env) (ctx : execve_struct) (k : Nat) : Nat :=
  (bpf_probe_read_ptr (env.compat_ptr (ptr_add ctx.argv (8 * k)))).2

/-- Outcome of the copy of iteration `k` into a slot holding `old`. -/
def copy_at (env : Env) (ctx : execve_struct) (k : Nat) (old : Buf) : Int × Buf :=
  bpf_probe_read old 256 (env.compat_mem (filn_at env ctx k) 256)

/-- Return value `rs` of the copy of iteration `k`. -/
def copy_ret (env : Env) (ctx : execve_struct) (k : Nat) : Int :=
  (copy_at env ctx k zeroBuf).1

/-- The two steps of iteration `k`. -/
def iter_ops (env : Env) (ctx : execve_struct) (k : Nat) : List Op :=
  [Op.read .bpf_probe_read .filn 8 (.addr (ptr_add ctx.argv (8 * k))) (ptr_ret_at env ctx k),
   Op.read .bpf_probe_read (.user_comm k) 256 (.addr (filn_at env ctx k)) (copy_ret env ctx k)]

/-- Steps of `m` consecutive iterations starting at iteration `j`. -/
def loop_ops (env : Env) (ctx : execve_struct) : Nat → Nat → List Op
  | _, 0 => []
  | j, m + 1 => iter_ops env ctx j ++ loop_ops env ctx (j + 1) m

/-- Number of iterations executed from iteration `j` on when at most `fuel`
iterations remain before the bound on `i` is hit. -/
def iters (env : Env) (ctx : execve_struct) : Nat → Nat → Nat
  | 0, _ => 0
  | fuel + 1, j => if copy_ret env ctx j ≠ 0 then 1 else 1 + iters env ctx fuel (j + 1)

/-- Outcome of the read of `task->fs`. -/
def fs_read (env : Env) : Int × Nat :=
  bpf_probe_read_ptr (env.kernel_ptr (ptr_add (env.task % 2 ^ 64) env.off_fs))

/-- Outcome of the read of `fs->pwd.dentry`. -/
def dentry_read (env : Env) : Int × Nat :=
  bpf_probe_read_ptr (env.compat_ptr (ptr_add (fs_read env).2 env.off_pwd_dentry))

/-- Outcome of the read of `dentry->d_iname` into a field holding `old`. -/
def cwd_read (env : Env) (old : Buf) : Int × Buf :=
  bpf_probe_read old 32 (env.compat_mem (ptr_add (dentry_read env).2 env.off_d_iname) 32)

/-- Steps of `ebpf_execve` between the reservation and the argv loop. -/
def pre_ops (env : Env) (ctx : execve_struct) : List Op :=
  [.store .syscall_nr,
   .read .bpf_probe_read_user .binary_filepath 256 (.addr ctx.filename)
     (bpf_probe_read zeroBuf 256 (env.user_mem ctx.filename 256)).1,
   .get_current_comm .comm 16,
   .get_current_pid_tgid, .store .pid, .store .tgid,
   .get_current_uid_gid, .store .uid, .store .gid,
   .get_current_task,
   .read .bpf_probe_read_kernel .fs 8
     (.addr (ptr_add (env.task % 2 ^ 64) env.off_fs)) (fs_read env).1,
   .read .bpf_probe_read .dentry 8
     (.addr (ptr_add (fs_read env).2 env.off_pwd_dentry)) (dentry_read env).1,
   .read .bpf_probe_read .cwd 32
     (.addr (ptr_add (dentry_read env).2 env.off_d_iname)) (cwd_read env zeroBuf).1]

/-- Number of iterations of the argv loop in a run of `ebpf_execve`. -/
def n_iter (env : Env) (ctx : execve_struct) : Nat :=
  match env.reserve with
  | none => 0
  | some _ => iters env ctx 33 0

end loop_model

/-! ## Concrete runs -/

section concrete

/-- A reserved `struct event` slot still holding stale bytes. -/
def stale_event : capture_exec.event := ⟨4242, fun _ => 255, fun _ => 255⟩

/-- Context of an execve whose path pointer is 4096. -/
def tev0 : capture_exec.trace_event_execve := ⟨0, 0, 0, 0, 59, 0, 4096, 8192, 12288⟩

/-- Thread 9 of process 7 execs the path "/b", readable at address 4096. -/
def env_min_ok : capture_exec.Env :=
  ⟨7 * 2 ^ 32 + 9, some stale_event, true, fun _ => 0,
   fun a => if a = 4096 then some [47, 98] else none⟩

/-- Same caller, but no string is readable at the path pointer. -/
def env_min_bad_path : capture_exec.Env :=
  ⟨7 * 2 ^ 32 + 9, some stale_event, true, fun _ => 0, fun _ => none⟩

/-- Same caller, execing a path of 2000 bytes 'A'. -/
def env_min_long : capture_exec.Env :=
  ⟨7 * 2 ^ 32 + 9, some stale_event, true, fun _ => 0,
   fun a => if a = 4096 then some (List.replicate 2000 65) else none⟩

/-- Same caller, ring buffer full. -/
def env_min_full : capture_exec.Env :=
  ⟨7 * 2 ^ 32 + 9, none, true, fun _ => 0, fun _ => none⟩

/-- A reserved `struct event_data` slot still holding stale bytes. -/
def stale_event_data : exec2.event_data :=
  ⟨1, 1, 1, 1, 1, fun _ => 255, fun _ => 255, fun _ => 255, fun _ _ => 255⟩

/-- Context of an execve with path pointer 4096 and argv pointer 8192. -/
def ctx0 : exec2.execve_struct := ⟨0, 0, 0, 0, 59, 4096, 8192, 12288⟩

/-- Thread 9 of process 7, uid 7 and gid 5, execs with one argument: argv[0]
points to 20480 where the string "a" and zero bytes up to 256 bytes are
readable, argv[1] is null, and nothing is readable at address 0.  The cwd walk
succeeds. -/
def env_one_arg : exec2.Env :=
  ⟨some stale_event_data, 7 * 2 ^ 32 + 9, 5 * 2 ^ 32 + 7, 2 ^ 63, fun _ => 0,
   fun a n => if a = 4096 ∧ n = 256 then some (fun _ => 47) else none,
   fun a => if a = 2 ^ 63 + 100 then some (2 ^ 63 + 1000) else none,
   fun a => if a = 2 ^ 63 + 1048 then some (2 ^ 63 + 2000)
            else if a = 8192 then some 20480
            else if a = 8200 then some 0 else none,
   fun a n => if a = 2 ^ 63 + 2056 ∧ n = 32 then some (fun _ => 100)
              else if a = 20480 ∧ n = 256 then some (fun i => if i = 0 then 97 else 0)
              else none,
   100, 48, 56⟩

/-- Same as `env_one_arg`, but every guarded read faults. -/
def env_all_fault : exec2.Env :=
  ⟨some stale_event_data, 7 * 2 ^ 32 + 9, 5 * 2 ^ 32 + 7, 2 ^ 63, fun _ => 0,
   fun _ _ => none, fun _ => none, fun _ => none, fun _ _ => none, 100, 48, 56⟩

/-- The read of `task->fs` faults, yet the low addresses reached from the
zeroed pointer are readable. -/
def env_fs_fault_low_mapped : exec2.Env :=
  ⟨some stale_event_data, 7 * 2 ^ 32 + 9, 5 * 2 ^ 32 + 7, 2 ^ 63, fun _ => 0,
   fun _ _ => none, fun _ => none,
   fun a => if a = 48 then some 1000 else none,
   fun a n => if a = 1056 ∧ n = 32 then some (fun _ => 100) else none,
   100, 48, 56⟩

/-- Every pointer read faults, yet 256 bytes are readable at address 0. -/
def env_null_mapped : exec2.Env :=
  ⟨some stale_event_data, 7 * 2 ^ 32 + 9, 5 * 2 ^ 32 + 7, 2 ^ 63, fun _ => 0,
   fun _ _ => none, fun _ => none, fun _ => none,
   fun a n => if a = 0 ∧ n = 256 then some (fun _ => 100) else none,
   100, 48, 56⟩

/-- An execve with 40 arguments: argv[0..39] all point to 20480, where the
string "a" and zero bytes up to 256 bytes are readable, argv[40] is null, and
nothing is readable at address 0. -/
def env_forty_args : exec2.Env :=
  ⟨some stale_event_data, 7 * 2 ^ 32 + 9, 5 * 2 ^ 32 + 7, 2 ^ 63, fun _ => 0,
   fun _ _ => none, fun _ => none,
   fun a => if 8192 ≤ a ∧ a < 8192 + 8 * 40 then some 20480
            else if a = 8192 + 8 * 40 then some 0 else none,
   fun a n => if a = 20480 ∧ n = 256 then some (fun i => if i = 0 then 97 else 0) else none,
   100, 48, 56⟩

/-- Every guarded read succeeds, at every address and forever. -/
def env_all_ok : exec2.Env :=
  ⟨some stale_event_data, 7 * 2 ^ 32 + 9, 5 * 2 ^ 32 + 7, 2 ^ 63, fun _ => 0,
   fun _ _ => some (fun _ => 47), fun _ => some (2 ^ 63 + 1000), fun _ => some 20480,
   fun _ _ => some (fun _ => 97), 100, 48, 56⟩

/-- Ring buffer full. -/
def env_full : exec2.Env :=
  ⟨none, 7 * 2 ^ 32 + 9, 5 * 2 ^ 32 + 7, 2 ^ 63, fun _ => 0,
   fun _ _ => none, fun _ => none, fun _ => none, fun _ _ => none, 100, 48, 56⟩

end concrete

/-! ## Properties -/

section minimal
open capture_exec

theorem enter_execve_reserve_none (env : Env) (t : trace_event_execve)
    (h : env.reserve = none) :
    enter_execve env t = ⟨0, [.get_current_pid_tgid, .ringbuf_reserve false], none⟩ := by
  simp [enter_execve, h]

theorem enter_execve_zero_fault (env : Env) (t : trace_event_execve) (evt : event)
    (h : env.reserve = some evt) (hz : env.zero_readable = false) :
    enter_execve env t =
      ⟨1, [.get_current_pid_tgid, .ringbuf_reserve true,
           .read .bpf_probe_read_kernel .filename ARGSIZE .zero (-EFAULT),
           .printk, .ringbuf_discard], none⟩ := by
  simp [enter_execve, h, hz, bpf_probe_read, EFAULT]

theorem enter_execve_path_fault (env : Env) (t : trace_event_execve) (evt : event)
    (h : env.reserve = some evt) (hz : env.zero_readable = true)
    (hp : env.user_str t.filename = none) :
    enter_execve env t =
      ⟨1, [.get_current_pid_tgid, .ringbuf_reserve true,
           .read .bpf_probe_read_kernel .filename ARGSIZE .zero 0,
           .store .pid, .get_current_comm .comm 80,
           .read .bpf_probe_read_user_str .filename ARGSIZE (.addr t.filename) (-EFAULT),
           .printk, .ringbuf_discard], none⟩ := by
  simp [enter_execve, h, hz, hp, bpf_probe_read, bpf_probe_read_user_str, EFAULT, ARGSIZE]

theorem enter_execve_commit (env : Env) (t : trace_event_execve) (evt : event)
    (s : List Nat)
    (h : env.reserve = some evt) (hz : env.zero_readable = true)
    (hp : env.user_str t.filename = some s) :
    enter_execve env t =
      ⟨0, [.get_current_pid_tgid, .ringbuf_reserve true,
           .read .bpf_probe_read_kernel .filename ARGSIZE .zero 0,
           .store .pid, .get_current_comm .comm 80,
           .read .bpf_probe_read_user_str .filename ARGSIZE (.addr t.filename)
             ((min s.length 1023 + 1 : Nat) : Int),
           .ringbuf_submit],
       some ⟨((env.pid_tgid % 2 ^ 64) >>> 32) % 2 ^ 32,
             bpf_get_current_comm evt.comm 80 env.comm,
             fun i => if i < min s.length 1023 then s.getD i 0
                      else if i = min s.length 1023 then 0
                      else (evt.filename.write ARGSIZE zero) i⟩⟩ := by
  simp [enter_execve, h, hz, hp, bpf_probe_read, bpf_probe_read_user_str, ARGSIZE]
  omega

end minimal

section extended
open exec2

theorem bpf_probe_read_ret (old old' : Buf) (size : Nat) (src : Option Buf) :
    (bpf_probe_read old size src).1 = (bpf_probe_read old' size src).1 := by
  cases src <;> rfl

theorem copy_at_ret (env : Env) (ctx : execve_struct) (k : Nat) (old : Buf) :
    (copy_at env ctx k old).1 = copy_ret env ctx k :=
  bpf_probe_read_ret _ _ _ _

theorem iters_le (env : Env) (ctx : execve_struct) :
    ∀ fuel j, iters env ctx fuel j ≤ fuel := by
  intro fuel
  induction fuel with
  | zero => intro j; simp [iters]
  | succ f ih =>
    intro j
    simp only [iters]
    split_ifs
    · omega
    · have := ih (j + 1); omega

/-- Closed form of the argv loop entered at iteration `j` (with `i = 8 * j`). -/
theorem argv_loop_closed (env : Env) (ctx : execve_struct) :
    ∀ fuel j (uc : Nat → Buf), j + fuel = 33 →
      argv_loop env ctx (8 * j) j uc =
        (fun k => if j ≤ k ∧ k < j + iters env ctx fuel j
                  then (copy_at env ctx k (uc k)).2 else uc k,
         loop_ops env ctx j (iters env ctx fuel j)) := by
  intro fuel
  induction fuel with
  | zero =>
    intro j uc hj
    have : j = 33 := by omega
    subst this
    rw [argv_loop]
    simp [iters, loop_ops]
    funext k
    have h2 : ¬ (33 ≤ k ∧ k < 33) := by omega
    simp [h2]
  | succ f ih =>
    intro j uc hj
    have hle : 8 * j ≤ 256 := by omega
    rw [argv_loop]
    simp only [hle, if_true]
    have hret := copy_at_ret env ctx j (uc j)
    simp only [copy_at, filn_at] at hret
    by_cases hc : copy_ret env ctx j = 0
    · have h8 : 8 * j + 8 = 8 * (j + 1) := by ring
      simp only [hret, hc, ne_eq, not_true_eq_false, if_false, h8]
      rw [ih (j + 1) _ (by omega)]
      simp only [iters, hc, ne_eq, not_true_eq_false, if_false, loop_ops, Prod.mk.injEq]
      constructor
      · funext k
        by_cases hk : k = j
        · subst hk
          have h1 : ¬ (k + 1 ≤ k ∧ k < k + 1 + iters env ctx f (k + 1)) := by omega
          have h2 : k ≤ k ∧ k < k + (1 + iters env ctx f (k + 1)) := by omega
          simp [h1, h2, copy_at, filn_at]
        · by_cases hin : j + 1 ≤ k ∧ k < j + 1 + iters env ctx f (j + 1)
          · have h2 : j ≤ k ∧ k < j + (1 + iters env ctx f (j + 1)) := by omega
            simp [hin, h2, Function.update_noteq hk]
          · have h2 : ¬ (j ≤ k ∧ k < j + (1 + iters env ctx f (j + 1))) := by omega
            simp [hin, h2, Function.update_noteq hk]
      · have : 1 + iters env ctx f (j + 1) = iters env ctx f (j + 1) + 1 := by omega
        rw [this]
        simp [loop_ops, iter_ops, ptr_ret_at, filn_at, hc]
    · simp only [hret, hc, ne_eq, not_false_eq_true, if_true]
      simp only [iters, hc, ne_eq, not_false_eq_true, if_true, loop_ops, Prod.mk.injEq]
      constructor
      · funext k
        by_cases hk : k = j
        · subst hk
          simp [copy_at, filn_at]
        · have h2 : ¬ (j ≤ k ∧ k < j + 1) := by omega
          simp [h2, Function.update_noteq hk]
      · simp [iter_ops, ptr_ret_at, filn_at]

theorem ebpf_execve_reserve_none (env : Env) (ctx : execve_struct) (h : env.reserve = none) :
    ebpf_execve env ctx = ⟨0, [.ringbuf_reserve false], none⟩ := by
  simp [ebpf_execve, h]

/-- Closed form of a run of `ebpf_execve` whose reservation succeeds. -/
theorem ebpf_execve_reserve_some (env : Env) (ctx : execve_struct) (ed : event_data)
    (h : env.reserve = some ed) :
    ebpf_execve env ctx =
      ⟨0, .ringbuf_reserve true :: pre_ops env ctx ++
            loop_ops env ctx 0 (iters env ctx 33 0) ++ [.ringbuf_submit],
       some ⟨((env.pid_tgid % 2 ^ 64) >>> 32) % 2 ^ 32, (env.pid_tgid % 2 ^ 64) % 2 ^ 32,
             ((env.uid_gid % 2 ^ 64) >>> 32) % 2 ^ 32, (env.uid_gid % 2 ^ 64) % 2 ^ 32,
             ctx.syscall_nr,
             bpf_get_current_comm ed.comm 16 env.comm,
             (cwd_read env ed.cwd).2,
             (bpf_probe_read ed.binary_filepath 256 (env.user_mem ctx.filename 256)).2,
             fun k => if k < iters env ctx 33 0
                      then (copy_at env ctx k (ed.user_comm k)).2 else ed.user_comm k⟩⟩ := by
  have hl := argv_loop_closed env ctx 33 0 ed.user_comm (by norm_num)
  simp only [Nat.mul_zero] at hl
  have h1 := bpf_probe_read_ret ed.binary_filepath zeroBuf 256 (env.user_mem ctx.filename 256)
  have h2 := bpf_probe_read_ret ed.cwd zeroBuf 32
    (env.compat_mem (ptr_add (dentry_read env).2 env.off_d_iname) 32)
  simp only [ebpf_execve, h, hl, pre_ops, cwd_read, dentry_read, fs_read, h1, h2] at *
  simp

theorem n_iter_le (env : Env) (ctx : execve_struct) : n_iter env ctx ≤ 33 := by
  unfold n_iter
  split
  · omega
  · exact iters_le env ctx 33 0

theorem iters_pos (env : Env) (ctx : execve_struct) (fuel j : Nat) :
    0 < iters env ctx (fuel + 1) j := by
  simp only [iters]
  split_ifs <;> omega

/-- The loop stops at the first failing copy. -/
theorem iters_stop (env : Env) (ctx : execve_struct) :
    ∀ fuel j k, k < iters env ctx fuel j → copy_ret env ctx (j + k) ≠ 0 →
      iters env ctx fuel j = k + 1 := by
  intro fuel
  induction fuel with
  | zero => intro j k hk; simp [iters] at hk
  | succ f ih =>
    intro j k hk hc
    simp only [iters] at hk ⊢
    split_ifs at hk ⊢ with h0
    · omega
    · cases k with
      | zero => exact absurd (by simpa using hc) (by simpa using h0)
      | succ k =>
        have := ih (j + 1) k (by omega) (by rwa [show j + 1 + k = j + (k + 1) by ring])
        omega

/-- When the copies of iterations `j .. j+n-1` succeed and that of iteration
`j+n` fails, exactly `n+1` iterations run. -/
theorem iters_eq (env : Env) (ctx : execve_struct) :
    ∀ fuel j n, n < fuel → (∀ k < n, copy_ret env ctx (j + k) = 0) →
      copy_ret env ctx (j + n) ≠ 0 → iters env ctx fuel j = n + 1 := by
  intro fuel
  induction fuel with
  | zero => intro j n hn; omega
  | succ f ih =>
    intro j n hn hok hfail
    simp only [iters]
    cases n with
    | zero => simp at hfail; simp [hfail]
    | succ n =>
      have h0 : copy_ret env ctx j = 0 := by simpa using hok 0 (by omega)
      simp only [h0, ne_eq, not_true_eq_false, if_false]
      have := ih (j + 1) n (by omega)
        (fun k hk => by
          have := hok (k + 1) (by omega)
          rwa [show j + (k + 1) = j + 1 + k by ring] at this)
        (by rwa [show j + (n + 1) = j + 1 + n by ring] at hfail)
      omega

theorem filn_reads_loop_ops (env : Env) (ctx : execve_struct) :
    ∀ m j, filn_reads (loop_ops env ctx j m) =
      (List.range' j m).map fun k => (ptr_add ctx.argv (8 * k), ptr_ret_at env ctx k) := by
  intro m
  induction m with
  | zero => intro j; simp [loop_ops, filn_reads]
  | succ m ih =>
    intro j
    have := ih (j + 1)
    simp only [filn_reads] at this
    simp [loop_ops, filn_reads, iter_ops, List.filterMap_append, List.range'_succ, this]

theorem slot_copies_loop_ops (env : Env) (ctx : execve_struct) :
    ∀ m j, slot_copies (loop_ops env ctx j m) =
      (List.range' j m).map fun k => (k, filn_at env ctx k, copy_ret env ctx k) := by
  intro m
  induction m with
  | zero => intro j; simp [loop_ops, slot_copies]
  | succ m ih =>
    intro j
    have := ih (j + 1)
    simp only [slot_copies] at this
    simp [loop_ops, slot_copies, iter_ops, List.filterMap_append, List.range'_succ, this]

theorem cwd_reads_loop_ops (env : Env) (ctx : execve_struct) :
    ∀ m j, cwd_reads (loop_ops env ctx j m) = [] := by
  intro m
  induction m with
  | zero => intro j; simp [loop_ops, cwd_reads]
  | succ m ih =>
    intro j
    have := ih (j + 1)
    simp only [cwd_reads] at this
    simp [loop_ops, cwd_reads, iter_ops, List.filter_append, this]

theorem release_loop_ops (env : Env) (ctx : execve_struct) :
    ∀ m j, (loop_ops env ctx j m).filter Op.is_release = [] := by
  intro m
  induction m with
  | zero => intro j; simp [loop_ops]
  | succ m ih =>
    intro j
    simp [loop_ops, iter_ops, List.filter_append, ih (j + 1), Op.is_release]

/-- The pointer reads of a run of `ebpf_execve`. -/
theorem filn_reads_ebpf_execve (env : Env) (ctx : execve_struct) :
    filn_reads (ebpf_execve env ctx).ops =
      (List.range (n_iter env ctx)).map fun k =>
        (ptr_add ctx.argv (8 * k), ptr_ret_at env ctx k) := by
  cases h : env.reserve with
  | none => simp [ebpf_execve_reserve_none env ctx h, n_iter, h, filn_reads]
  | some ed =>
    have hl := filn_reads_loop_ops env ctx (iters env ctx 33 0) 0
    simp only [filn_reads] at hl
    simp [ebpf_execve_reserve_some env ctx ed h, n_iter, h, filn_reads, pre_ops,
      List.filterMap_append, hl, List.range_eq_range']

/-- The slot copies of a run of `ebpf_execve`. -/
theorem slot_copies_ebpf_execve (env : Env) (ctx : execve_struct) :
    slot_copies (ebpf_execve env ctx).ops =
      (List.range (n_iter env ctx)).map fun k =>
        (k, filn_at env ctx k, copy_ret env ctx k) := by
  cases h : env.reserve with
  | none => simp [ebpf_execve_reserve_none env ctx h, n_iter, h, slot_copies]
  | some ed =>
    have hl := slot_copies_loop_ops env ctx (iters env ctx 33 0) 0
    simp only [slot_copies] at hl
    simp [ebpf_execve_reserve_some env ctx ed h, n_iter, h, slot_copies, pre_ops,
      List.filterMap_append, hl, List.range_eq_range']

end extended

/-! ## The claims -/

section claims
open capture_exec exec2

/-- The slot releases of a run of `ebpf_execve`. -/
theorem releases_ebpf_execve (env : exec2.Env) (ctx : execve_struct) (ed : event_data)
    (h : env.reserve = some ed) :
    (ebpf_execve env ctx).ops.filter Op.is_release = [.ringbuf_submit] := by
  simp [ebpf_execve_reserve_some env ctx ed h, pre_ops, List.filter_append,
    release_loop_ops, Op.is_release]

theorem getLast_ebpf_execve (env : exec2.Env) (ctx : execve_struct) (ed : event_data)
    (h : env.reserve = some ed) :
    (ebpf_execve env ctx).ops.getLast? = some .ringbuf_submit := by
  rw [ebpf_execve_reserve_some env ctx ed h]
  exact List.getLast?_concat _

theorem dst_loop_ops (env : exec2.Env) (ctx : execve_struct) :
    ∀ m j op, op ∈ loop_ops env ctx j m → ∀ s, op.dst = some (.user_comm s) →
      j ≤ s ∧ s < j + m := by
  intro m
  induction m with
  | zero => intro j op h; simp [loop_ops] at h
  | succ m ih =>
    intro j op h s hs
    simp only [loop_ops, iter_ops, List.mem_append, List.mem_cons, List.mem_singleton,
      List.not_mem_nil, or_false] at h
    rcases h with (h | h) | h
    · subst h; simp [Op.dst] at hs
    · subst h
      simp only [Op.dst, Option.some.injEq, Loc.user_comm.injEq] at hs
      omega
    · have := ih (j + 1) op h s hs
      omega

/-- Every write of a run of `ebpf_execve` into the `user_comm` table goes to a
slot below the number of iterations. -/
theorem dst_ebpf_execve (env : exec2.Env) (ctx : execve_struct) (op : Op)
    (h : op ∈ (ebpf_execve env ctx).ops) (s : Nat) (hs : op.dst = some (.user_comm s)) :
    s < n_iter env ctx := by
  cases hres : env.reserve with
  | none =>
    rw [ebpf_execve_reserve_none env ctx hres] at h
    simp only [List.mem_singleton] at h
    subst h
    simp [Op.dst] at hs
  | some ed =>
    rw [ebpf_execve_reserve_some env ctx ed hres] at h
    simp only [List.cons_append, List.mem_cons, List.mem_append, List.mem_singleton,
      List.not_mem_nil, or_false] at h
    rcases h with h | (h | h) | h
    · subst h; simp [Op.dst] at hs
    · simp only [pre_ops, List.mem_cons, List.mem_singleton, List.not_mem_nil, or_false] at h
      rcases h with h | h | h | h | h | h | h | h | h | h | h | h | h <;>
        (subst h; simp [Op.dst] at hs)
    · have := dst_loop_ops env ctx _ 0 op h s hs
      simpa [n_iter, hres] using this.2
    · subst h; simp [Op.dst] at hs

/-- The reads of the current-directory walk in a run of `ebpf_execve`. -/
theorem cwd_reads_ebpf_execve (env : exec2.Env) (ctx : execve_struct) (ed : event_data)
    (h : env.reserve = some ed) :
    cwd_reads (ebpf_execve env ctx).ops =
      [.read .bpf_probe_read_kernel .fs 8
         (.addr (ptr_add (env.task % 2 ^ 64) env.off_fs)) (fs_read env).1,
       .read .bpf_probe_read .dentry 8
         (.addr (ptr_add (fs_read env).2 env.off_pwd_dentry)) (dentry_read env).1,
       .read .bpf_probe_read .cwd 32
         (.addr (ptr_add (dentry_read env).2 env.off_d_iname)) (cwd_read env zeroBuf).1] := by
  have hl := cwd_reads_loop_ops env ctx (iters env ctx 33 0) 0
  simp only [cwd_reads] at hl
  simp [ebpf_execve_reserve_some env ctx ed h, cwd_reads, pre_ops, List.filter_append, hl]

/-- The `user_comm` table of the record committed by `ebpf_execve`: slot `k`
of an executed iteration `k` holds the outcome of that iteration's copy, made
over what the reserved slot held; every other slot is as reserved. -/
theorem user_comm_ebpf_execve (env : exec2.Env) (ctx : execve_struct) (ed r : event_data)
    (h : env.reserve = some ed) (hc : (ebpf_execve env ctx).committed = some r) :
    r.user_comm = fun k =>
      if k < n_iter env ctx
      then (bpf_probe_read (ed.user_comm k) 256
              (env.compat_mem
                (bpf_probe_read_ptr (env.compat_ptr (ptr_add ctx.argv (8 * k)))).2 256)).2
      else ed.user_comm k := by
  rw [ebpf_execve_reserve_some env ctx ed h] at hc
  simp only [Option.some.injEq] at hc
  subst hc
  simp only [n_iter, h, copy_at, filn_at]

/-- Every step of the argv loop that writes a `user_comm` slot is a
`bpf_probe_read` of 256 bytes. -/
theorem dst_size_loop_ops (env : exec2.Env) (ctx : execve_struct) :
    ∀ m j op, op ∈ loop_ops env ctx j m → ∀ s, op.dst = some (.user_comm s) →
      ∃ src ret, op = .read .bpf_probe_read (.user_comm s) 256 src ret := by
  intro m
  induction m with
  | zero => intro j op h; simp [loop_ops] at h
  | succ m ih =>
    intro j op h s hs
    simp only [loop_ops, iter_ops, List.mem_append, List.mem_cons, List.mem_singleton,
      List.not_mem_nil, or_false] at h
    rcases h with (h | h) | h
    · subst h; simp [Op.dst] at hs
    · subst h
      simp only [Op.dst, Option.some.injEq, Loc.user_comm.injEq] at hs
      subst hs
      exact ⟨_, _, rfl⟩
    · exact ih (j + 1) op h s hs

/-- Every step of a run of `ebpf_execve` that writes a `user_comm` slot is a
`bpf_probe_read` of 256 bytes. -/
theorem dst_size_ebpf_execve (env : exec2.Env) (ctx : execve_struct) (op : Op)
    (h : op ∈ (ebpf_execve env ctx).ops) (s : Nat) (hs : op.dst = some (.user_comm s)) :
    ∃ src ret, op = .read .bpf_probe_read (.user_comm s) 256 src ret := by
  cases hres : env.reserve with
  | none =>
    rw [ebpf_execve_reserve_none env ctx hres] at h
    simp only [List.mem_singleton] at h
    subst h
    simp [Op.dst] at hs
  | some ed =>
    rw [ebpf_execve_reserve_some env ctx ed hres] at h
    simp only [List.cons_append, List.mem_cons, List.mem_append, List.mem_singleton,
      List.not_mem_nil, or_false] at h
    rcases h with h | (h | h) | h
    · subst h; simp [Op.dst] at hs
    · simp only [pre_ops, List.mem_cons, List.mem_singleton, List.not_mem_nil, or_false] at h
      rcases h with h | h | h | h | h | h | h | h | h | h | h | h | h <;>
        (subst h; simp [Op.dst] at hs)
    · exact dst_size_loop_ops env ctx _ 0 op h s hs
    · subst h; simp [Op.dst] at hs

/-- C1: whenever either handler commits a record, its `pid` field is the high
32 bits of the value of bpf_get_current_pid_tgid (the thread-group id), and
differs from the low 32 bits (the thread id) whenever the two halves differ. -/
theorem pid_is_thread_group_id
    (envm : capture_exec.Env) (t : trace_event_execve)
    (enve : exec2.Env) (ctx : execve_struct) :
    (∀ r, (enter_execve envm t).committed = some r →
      r.pid = envm.pid_tgid / 2 ^ 32 % 2 ^ 32 ∧
      (envm.pid_tgid / 2 ^ 32 % 2 ^ 32 ≠ envm.pid_tgid % 2 ^ 32 →
        r.pid ≠ envm.pid_tgid % 2 ^ 32)) ∧
    (∀ r, (ebpf_execve enve ctx).committed = some r →
      r.pid = enve.pid_tgid / 2 ^ 32 % 2 ^ 32 ∧
      (enve.pid_tgid / 2 ^ 32 % 2 ^ 32 ≠ enve.pid_tgid % 2 ^ 32 →
        r.pid ≠ enve.pid_tgid % 2 ^ 32)) := by
  have key : ∀ v : Nat, ((v % 2 ^ 64) >>> 32) % 2 ^ 32 = v / 2 ^ 32 % 2 ^ 32 := by
    intro v
    rw [Nat.shiftRight_eq_div_pow]
    omega
  constructor
  · intro r h
    have hp : r.pid = envm.pid_tgid / 2 ^ 32 % 2 ^ 32 := by
      cases hr : envm.reserve with
      | none => rw [enter_execve_reserve_none envm t hr] at h; simp at h
      | some evt =>
        cases hz : envm.zero_readable with
        | false => rw [enter_execve_zero_fault envm t evt hr hz] at h; simp at h
        | true =>
          cases hs : envm.user_str t.filename with
          | none => rw [enter_execve_path_fault envm t evt hr hz hs] at h; simp at h
          | some s =>
            rw [enter_execve_commit envm t evt s hr hz hs] at h
            simp only [Option.some.injEq] at h
            rw [← h]
            exact key _
    exact ⟨hp, fun hne => by rw [hp]; exact hne⟩
  · intro r h
    have hp : r.pid = enve.pid_tgid / 2 ^ 32 % 2 ^ 32 := by
      cases hr : enve.reserve with
      | none => rw [ebpf_execve_reserve_none enve ctx hr] at h; simp at h
      | some ed =>
        rw [ebpf_execve_reserve_some enve ctx ed hr] at h
        simp only [Option.some.injEq] at h
        rw [← h]
        exact key _
    exact ⟨hp, fun hne => by rw [hp]; exact hne⟩

/-- Witness for C1: thread 9 of process 7 execs; both handlers commit a record
whose `pid` is 7, not 9. -/
theorem pid_is_thread_group_id_witness :
    (∃ r, (enter_execve env_min_ok tev0).committed = some r ∧ r.pid = 7 ∧ r.pid ≠ 9) ∧
    (∃ r, (ebpf_execve env_one_arg ctx0).committed = some r ∧ r.pid = 7 ∧ r.pid ≠ 9) := by
  have hm := enter_execve_commit env_min_ok tev0 stale_event [47, 98] rfl rfl rfl
  have he := ebpf_execve_reserve_some env_one_arg ctx0 stale_event_data rfl
  have hc1 := congrArg Result.committed hm
  have hc2 := congrArg Result.committed he
  have w := pid_is_thread_group_id env_min_ok tev0 env_one_arg ctx0
  refine ⟨⟨_, hc1, ?_, ?_⟩, ⟨_, hc2, ?_, ?_⟩⟩
  · exact (w.1 _ hc1).1.trans (by decide)
  · exact fun h9 => (w.1 _ hc1).2 (by decide) (h9.trans (by decide))
  · exact (w.2 _ hc2).1.trans (by decide)
  · exact fun h9 => (w.2 _ hc2).2 (by decide) (h9.trans (by decide))

/-- C2, as stated, fails for `ebpf_execve`: the reservation succeeds, the read
of the program path faults, and the record is committed, not discarded. -/
theorem ebpf_execve_commits_after_path_fault :
    env_all_fault.reserve.isSome = true ∧
    env_all_fault.user_mem ctx0.filename 256 = none ∧
    (ebpf_execve env_all_fault ctx0).committed.isSome = true ∧
    Op.ringbuf_submit ∈ (ebpf_execve env_all_fault ctx0).ops ∧
    Op.ringbuf_discard ∉ (ebpf_execve env_all_fault ctx0).ops := by
  have hf := releases_ebpf_execve env_all_fault ctx0 stale_event_data rfl
  have hs : Op.ringbuf_submit ∈
      (ebpf_execve env_all_fault ctx0).ops.filter Op.is_release := by simp [hf]
  refine ⟨rfl, rfl, ?_, (List.mem_filter.mp hs).1, ?_⟩
  · rw [ebpf_execve_reserve_some env_all_fault ctx0 stale_event_data rfl]
    rfl
  · intro hd
    have : Op.ringbuf_discard ∈
        (ebpf_execve env_all_fault ctx0).ops.filter Op.is_release :=
      List.mem_filter.mpr ⟨hd, rfl⟩
    rw [hf] at this
    simp at this

/-- C2, amended: in `enter_execve`, when the reservation succeeds and no
string is readable at the path pointer, the slot is released by a discard and
nothing is committed.  In `ebpf_execve` the result of the path read is not
checked: when it faults, the slot is released by a commit and the committed
record has a zero-filled `binary_filepath`. -/
theorem path_fault_outcome
    (envm : capture_exec.Env) (t : trace_event_execve)
    (enve : exec2.Env) (ctx : execve_struct) :
    (envm.reserve ≠ none → envm.user_str t.filename = none →
      (enter_execve envm t).committed = none ∧
      (enter_execve envm t).ops.filter Op.is_release = [.ringbuf_discard]) ∧
    (enve.reserve ≠ none → enve.user_mem ctx.filename 256 = none →
      (ebpf_execve enve ctx).ops.filter Op.is_release = [.ringbuf_submit] ∧
      ∃ r, (ebpf_execve enve ctx).committed = some r ∧
        ∀ i, i < 256 → r.binary_filepath i = 0) := by
  constructor
  · intro hr hs
    cases hres : envm.reserve with
    | none => exact absurd hres hr
    | some evt =>
      cases hz : envm.zero_readable with
      | false => simp [enter_execve_zero_fault envm t evt hres hz, Op.is_release]
      | true => simp [enter_execve_path_fault envm t evt hres hz hs, Op.is_release]
  · intro hr hs
    cases hres : enve.reserve with
    | none => exact absurd hres hr
    | some ed =>
      refine ⟨releases_ebpf_execve enve ctx ed hres, ?_⟩
      rw [ebpf_execve_reserve_some enve ctx ed hres]
      refine ⟨_, rfl, ?_⟩
      intro i hi
      simp [hs, bpf_probe_read, Buf.write, hi, zeroBuf]

/-- Witness for C2 (amended): a faulting path pointer makes `enter_execve`
discard and `ebpf_execve` commit a record whose path field is zero. -/
theorem path_fault_outcome_witness :
    ((enter_execve env_min_bad_path tev0).committed = none ∧
      (enter_execve env_min_bad_path tev0).ops.filter Op.is_release = [.ringbuf_discard]) ∧
    ((ebpf_execve env_all_fault ctx0).ops.filter Op.is_release = [.ringbuf_submit] ∧
      ∃ r, (ebpf_execve env_all_fault ctx0).committed = some r ∧
        ∀ i, i < 256 → r.binary_filepath i = 0) :=
  ⟨(path_fault_outcome env_min_bad_path tev0 env_all_fault ctx0).1 (by simp [env_min_bad_path]) rfl,
   (path_fault_outcome env_min_bad_path tev0 env_all_fault ctx0).2 (by simp [env_all_fault]) rfl⟩

/-- C3: in both handlers, a failed reservation makes the handler return 0
with nothing committed and no step that releases a slot or writes a record;
a successful reservation is followed by exactly one release of the slot, a
commit or a discard, which is the last step of the handler, and a record is
committed exactly when that release is the commit. -/
theorem reserve_release_protocol
    (envm : capture_exec.Env) (t : trace_event_execve)
    (enve : exec2.Env) (ctx : execve_struct) :
    (envm.reserve = none →
      (enter_execve envm t).ret = 0 ∧ (enter_execve envm t).committed = none ∧
      ∀ op ∈ (enter_execve envm t).ops, op.is_release = false ∧ op.writes_record = false) ∧
    (envm.reserve ≠ none →
      ∃ rel, (rel = Op.ringbuf_submit ∨ rel = Op.ringbuf_discard) ∧
        (enter_execve envm t).ops.filter Op.is_release = [rel] ∧
        (enter_execve envm t).ops.getLast? = some rel ∧
        ((enter_execve envm t).committed.isSome = true ↔ rel = Op.ringbuf_submit)) ∧
    (enve.reserve = none →
      (ebpf_execve enve ctx).ret = 0 ∧ (ebpf_execve enve ctx).committed = none ∧
      ∀ op ∈ (ebpf_execve enve ctx).ops, op.is_release = false ∧ op.writes_record = false) ∧
    (enve.reserve ≠ none →
      ∃ rel, (rel = Op.ringbuf_submit ∨ rel = Op.ringbuf_discard) ∧
        (ebpf_execve enve ctx).ops.filter Op.is_release = [rel] ∧
        (ebpf_execve enve ctx).ops.getLast? = some rel ∧
        ((ebpf_execve enve ctx).committed.isSome = true ↔ rel = Op.ringbuf_submit)) := by
  refine ⟨?_, ?_, ?_, ?_⟩
  · intro h
    rw [enter_execve_reserve_none envm t h]
    simp [Op.is_release, Op.writes_record]
  · intro hr
    cases hres : envm.reserve with
    | none => exact absurd hres hr
    | some evt =>
      cases hz : envm.zero_readable with
      | false =>
        refine ⟨.ringbuf_discard, Or.inr rfl, ?_⟩
        simp [enter_execve_zero_fault envm t evt hres hz, Op.is_release]
      | true =>
        cases hs : envm.user_str t.filename with
        | none =>
          refine ⟨.ringbuf_discard, Or.inr rfl, ?_⟩
          simp [enter_execve_path_fault envm t evt hres hz hs, Op.is_release]
        | some s =>
          refine ⟨.ringbuf_submit, Or.inl rfl, ?_⟩
          simp [enter_execve_commit envm t evt s hres hz hs, Op.is_release]
  · intro h
    rw [ebpf_execve_reserve_none enve ctx h]
    simp [Op.is_release, Op.writes_record]
  · intro hr
    cases hres : enve.reserve with
    | none => exact absurd hres hr
    | some ed =>
      refine ⟨.ringbuf_submit, Or.inl rfl, releases_ebpf_execve enve ctx ed hres,
        getLast_ebpf_execve enve ctx ed hres, ?_⟩
      simp [ebpf_execve_reserve_some enve ctx ed hres]

/-- Witness for C3: a full ring buffer, and a successful reservation, in each
handler. -/
theorem reserve_release_protocol_witness :
    ((enter_execve env_min_full tev0).ret = 0 ∧ (enter_execve env_min_full tev0).committed = none ∧
      ∀ op ∈ (enter_execve env_min_full tev0).ops,
        op.is_release = false ∧ op.writes_record = false) ∧
    (∃ rel, (rel = Op.ringbuf_submit ∨ rel = Op.ringbuf_discard) ∧
        (enter_execve env_min_bad_path tev0).ops.filter Op.is_release = [rel] ∧
        (enter_execve env_min_bad_path tev0).ops.getLast? = some rel ∧
        ((enter_execve env_min_bad_path tev0).committed.isSome = true ↔
          rel = Op.ringbuf_submit)) ∧
    ((ebpf_execve env_full ctx0).ret = 0 ∧ (ebpf_execve env_full ctx0).committed = none ∧
      ∀ op ∈ (ebpf_execve env_full ctx0).ops,
        op.is_release = false ∧ op.writes_record = false) ∧
    (∃ rel, (rel = Op.ringbuf_submit ∨ rel = Op.ringbuf_discard) ∧
        (ebpf_execve env_one_arg ctx0).ops.filter Op.is_release = [rel] ∧
        (ebpf_execve env_one_arg ctx0).ops.getLast? = some rel ∧
        ((ebpf_execve env_one_arg ctx0).committed.isSome = true ↔
          rel = Op.ringbuf_submit)) :=
  ⟨(reserve_release_protocol env_min_full tev0 env_full ctx0).1 rfl,
   (reserve_release_protocol env_min_bad_path tev0 env_one_arg ctx0).2.1
     (by simp [env_min_bad_path]),
   (reserve_release_protocol env_min_full tev0 env_full ctx0).2.2.1 rfl,
   (reserve_release_protocol env_min_bad_path tev0 env_one_arg ctx0).2.2.2
     (by simp [env_one_arg])⟩

/-- C5 evaluated at a caller with uid 7 and gid 5, for which
bpf_get_current_uid_gid returns `(5 <<< 32) ||| 7`: the committed record has
`uid = 5` and `gid = 7`. -/
theorem uid_gid_swapped_at_7_5 :
    env_one_arg.uid_gid = (5 <<< 32) ||| 7 ∧
    ∃ r, (ebpf_execve env_one_arg ctx0).committed = some r ∧ r.uid = 5 ∧ r.gid = 7 := by
  refine ⟨by decide, ?_⟩
  rw [ebpf_execve_reserve_some env_one_arg ctx0 stale_event_data rfl]
  exact ⟨_, rfl, by decide, by decide⟩

/-- C6: when a string `s` is readable at the path pointer, every record
`enter_execve` commits has a `filename` field whose first `min (len s) 1023`
bytes are those of `s` and whose remaining bytes, up to the capacity 1024, are
zero, whatever the reserved slot held before; and the record is committed
whatever the length of `s`, provided the reservation and the zero-fill
succeed. -/
theorem filename_truncated_zero_padded
    (env : capture_exec.Env) (t : trace_event_execve) (s : List Nat)
    (hs : env.user_str t.filename = some s) :
    (∀ r, (enter_execve env t).committed = some r →
      (∀ i, i < min s.length 1023 → s[i]? = some (r.filename i)) ∧
      (∀ i, min s.length 1023 ≤ i → i < 1024 → r.filename i = 0)) ∧
    (env.reserve ≠ none → env.zero_readable = true →
      ∃ r, (enter_execve env t).committed = some r) := by
  constructor
  · intro r h
    cases hr : env.reserve with
    | none => rw [enter_execve_reserve_none env t hr] at h; simp at h
    | some evt =>
      cases hz : env.zero_readable with
      | false => rw [enter_execve_zero_fault env t evt hr hz] at h; simp at h
      | true =>
        rw [enter_execve_commit env t evt s hr hz hs] at h
        simp only [Option.some.injEq] at h
        subst h
        constructor
        · intro i hi
          have hl : i < s.length := lt_of_lt_of_le hi (min_le_left _ _)
          simp [hi, List.getD_eq_getElem?_getD, List.getElem?_eq_getElem hl]
        · intro i h1 h2
          have h3 : ¬ i < min s.length 1023 := not_lt.mpr h1
          simp only [h3, if_false]
          split_ifs
          · rfl
          · simp [Buf.write, ARGSIZE, h2, zero]
  · intro hr hz
    cases hres : env.reserve with
    | none => exact absurd hres hr
    | some evt =>
      rw [enter_execve_commit env t evt s hres hz hs]
      exact ⟨_, rfl⟩

/-- Witness for C6: a path of 2000 bytes 'A' is committed truncated to 1023
bytes followed by a zero byte, over a slot that held stale bytes. -/
theorem filename_truncated_zero_padded_witness :
    env_min_long.user_str tev0.filename = some (List.replicate 2000 65) ∧
    ∃ r, (enter_execve env_min_long tev0).committed = some r ∧
      r.filename 0 = 65 ∧ r.filename 1022 = 65 ∧ r.filename 1023 = 0 := by
  have w := filename_truncated_zero_padded env_min_long tev0 (List.replicate 2000 65) rfl
  obtain ⟨r, hr⟩ := w.2 (fun h => Option.noConfusion h) rfl
  have hlen : min (List.replicate 2000 65).length 1023 = 1023 := by
    rw [List.length_replicate]; decide
  have h0 := (w.1 r hr).1 0 (by rw [hlen]; decide)
  have h1 := (w.1 r hr).1 1022 (by rw [hlen]; decide)
  have h2 := (w.1 r hr).2 1023 (by rw [hlen]) (by decide)
  rw [List.getElem?_replicate] at h0 h1
  simp only [Nat.reduceLT, if_true, Option.some.injEq] at h0 h1
  exact ⟨rfl, r, hr, h0.symm, h1.symm, h2⟩

/-- C8: in a run of `ebpf_execve`, each iteration of the argv loop makes one
pointer read and one slot copy; the pointer read of iteration `k` is made at
byte offset `8 * k` from the argv base and the copy of iteration `k` goes to
slot `k`, from the pointer value that read left in `filn`; no two pointer
reads are made at the same address.  A successful reservation is followed by
at least one iteration.  In the committed record, slot `k` of `user_comm`
holds, for every executed iteration `k`, what the 256-byte copy from the
pointer read at offset `8 * k` left there, and every slot of an iteration that
was not executed is as the reserved slot held it. -/
theorem argv_stride (env : exec2.Env) (ctx : execve_struct) :
    (filn_reads (ebpf_execve env ctx).ops).length =
      (slot_copies (ebpf_execve env ctx).ops).length ∧
    (∀ k, k < (filn_reads (ebpf_execve env ctx).ops).length →
      (filn_reads (ebpf_execve env ctx).ops)[k]? =
        some (ptr_add ctx.argv (8 * k),
              (bpf_probe_read_ptr (env.compat_ptr (ptr_add ctx.argv (8 * k)))).1) ∧
      ∃ rs, (slot_copies (ebpf_execve env ctx).ops)[k]? =
        some (k, (bpf_probe_read_ptr (env.compat_ptr (ptr_add ctx.argv (8 * k)))).2, rs)) ∧
    ((filn_reads (ebpf_execve env ctx).ops).map Prod.fst).Nodup ∧
    (env.reserve ≠ none → 0 < (filn_reads (ebpf_execve env ctx).ops).length) ∧
    (∀ ed r, env.reserve = some ed → (ebpf_execve env ctx).committed = some r →
      (∀ k, k < (filn_reads (ebpf_execve env ctx).ops).length →
        r.user_comm k =
          (bpf_probe_read (ed.user_comm k) 256
            (env.compat_mem
              (bpf_probe_read_ptr (env.compat_ptr (ptr_add ctx.argv (8 * k)))).2 256)).2 ∧
        (slot_copies (ebpf_execve env ctx).ops)[k]? =
          some (k, (bpf_probe_read_ptr (env.compat_ptr (ptr_add ctx.argv (8 * k)))).2,
            (bpf_probe_read (ed.user_comm k) 256
              (env.compat_mem
                (bpf_probe_read_ptr (env.compat_ptr (ptr_add ctx.argv (8 * k)))).2 256)).1)) ∧
      (∀ k, (filn_reads (ebpf_execve env ctx).ops).length ≤ k →
        r.user_comm k = ed.user_comm k)) := by
  have hlen : (filn_reads (ebpf_execve env ctx).ops).length = n_iter env ctx := by
    rw [filn_reads_ebpf_execve]; simp
  refine ⟨?_, ?_, ?_, ?_, ?_⟩
  · rw [hlen, slot_copies_ebpf_execve]; simp
  · intro k hk
    rw [hlen] at hk
    rw [filn_reads_ebpf_execve, slot_copies_ebpf_execve]
    simp [List.getElem?_range hk, ptr_ret_at, filn_at]
  · rw [filn_reads_ebpf_execve, List.map_map]
    refine List.Nodup.map_on ?_ (List.nodup_range _)
    intro x hx y hy hxy
    have hn := n_iter_le env ctx
    rw [List.mem_range] at hx hy
    simp only [Function.comp_apply, ptr_add] at hxy
    omega
  · intro hr
    rw [hlen]
    cases hres : env.reserve with
    | none => exact absurd hres hr
    | some ed => simpa [n_iter, hres] using iters_pos env ctx 32 0
  · intro ed r hres hc
    have hu := user_comm_ebpf_execve env ctx ed r hres hc
    rw [hlen]
    constructor
    · intro k hk
      constructor
      · rw [hu]; simp only [hk, if_true]
      · rw [slot_copies_ebpf_execve]
        have hret := copy_at_ret env ctx k (ed.user_comm k)
        simp only [copy_at, filn_at] at hret
        simp [List.getElem?_range hk, filn_at, hret]
    · intro k hk
      have hnk : ¬ k < n_iter env ctx := by omega
      rw [hu]; simp only [hnk, if_false]

/-- Witness for C8: with one argument "a" the loop runs twice; its second
iteration reads the pointer at argv + 8 and copies into slot 1; the committed
record holds "a" in slot 0, zero bytes in slot 1 (the copy from the null
pointer failed) and the stale bytes of the reserved slot in slot 2. -/
theorem argv_stride_witness :
    ((filn_reads (ebpf_execve env_one_arg ctx0).ops)[1]? = some (8200, 0) ∧
      ∃ rs, (slot_copies (ebpf_execve env_one_arg ctx0).ops)[1]? = some (1, 0, rs)) ∧
    env_one_arg.reserve = some stale_event_data ∧
    ∃ r, (ebpf_execve env_one_arg ctx0).committed = some r ∧
      r.user_comm 0 0 = 97 ∧ r.user_comm 0 1 = 0 ∧ r.user_comm 1 0 = 0 ∧
      r.user_comm 2 0 = 255 ∧
      (slot_copies (ebpf_execve env_one_arg ctx0).ops)[0]? = some (0, 20480, 0) := by
  have hn : (filn_reads (ebpf_execve env_one_arg ctx0).ops).length = 2 := by
    rw [filn_reads_ebpf_execve]
    simp only [List.length_map, List.length_range]
    decide
  have hc := congrArg Result.committed
    (ebpf_execve_reserve_some env_one_arg ctx0 stale_event_data rfl)
  have w := (argv_stride env_one_arg ctx0).2.2.2.2 stale_event_data _ rfl hc
  have w0 := w.1 0 (by rw [hn]; decide)
  have w1 := w.1 1 (by rw [hn]; decide)
  have w2 := w.2 2 (by rw [hn])
  refine ⟨(argv_stride env_one_arg ctx0).2.1 1 (by rw [hn]; decide), rfl, _, hc,
    ?_, ?_, ?_, ?_, ?_⟩
  · exact (congrFun w0.1 0).trans (by decide)
  · exact (congrFun w0.1 1).trans (by decide)
  · exact (congrFun w1.1 0).trans (by decide)
  · exact (congrFun w2 0).trans (by decide)
  · exact w0.2

/-- C10: whatever the helpers return, the argv loop of `ebpf_execve` ends
after at most 33 iterations, its pointer reads are made at offsets
`i = 8 * k` with `k ≤ 32` (so `i ≤ 256`), and every step that writes a slot of
the `user_comm` table writes a slot `j ≤ 32`, inside the 256 slots.  Each such
step is a read of 256 bytes, the size of one slot; in the committed record
every slot from 33 on, and every byte at index 256 or more of any slot, is as
the reserved slot held it. -/
theorem argv_loop_bounded (env : exec2.Env) (ctx : execve_struct) :
    (filn_reads (ebpf_execve env ctx).ops).length ≤ 33 ∧
    (slot_copies (ebpf_execve env ctx).ops).length ≤ 33 ∧
    (∀ x ∈ filn_reads (ebpf_execve env ctx).ops,
      ∃ k, k ≤ 32 ∧ 8 * k ≤ 256 ∧ x.1 = ptr_add ctx.argv (8 * k)) ∧
    (∀ op ∈ (ebpf_execve env ctx).ops, ∀ j, op.dst = some (.user_comm j) →
      j ≤ 32 ∧ j < 256) ∧
    (∀ op ∈ (ebpf_execve env ctx).ops, ∀ j, op.dst = some (.user_comm j) →
      ∃ src ret, op = .read .bpf_probe_read (.user_comm j) 256 src ret) ∧
    (∀ ed r, env.reserve = some ed → (ebpf_execve env ctx).committed = some r →
      (∀ j, 33 ≤ j → r.user_comm j = ed.user_comm j) ∧
      (∀ j b, 256 ≤ b → r.user_comm j b = ed.user_comm j b)) := by
  have hn := n_iter_le env ctx
  refine ⟨?_, ?_, ?_, ?_, ?_, ?_⟩
  · rw [filn_reads_ebpf_execve]; simpa using hn
  · rw [slot_copies_ebpf_execve]; simpa using hn
  · intro x hx
    rw [filn_reads_ebpf_execve] at hx
    simp only [List.mem_map, List.mem_range] at hx
    obtain ⟨k, hk, rfl⟩ := hx
    exact ⟨k, by omega, by omega, rfl⟩
  · intro op hop j hj
    have := dst_ebpf_execve env ctx op hop j hj
    omega
  · intro op hop j hj
    exact dst_size_ebpf_execve env ctx op hop j hj
  · intro ed r hres hc
    have hu := user_comm_ebpf_execve env ctx ed r hres hc
    constructor
    · intro j hj
      have hnj : ¬ j < n_iter env ctx := by omega
      rw [hu]; simp only [hnj, if_false]
    · intro j b hb
      have hnb : ¬ b < 256 := by omega
      rw [hu]
      by_cases hj : j < n_iter env ctx
      · simp only [hj, if_true]
        cases env.compat_mem
            (bpf_probe_read_ptr (env.compat_ptr (ptr_add ctx.argv (8 * j)))).2 256 <;>
          simp [bpf_probe_read, Buf.write, hnb]
      · simp only [hj, if_false]

/-- Witness for C10: when every read succeeds forever, the loop runs exactly
33 times, its last copy goes to slot 32, and slot 33 of the committed record
is as reserved. -/
theorem argv_loop_bounded_witness :
    (filn_reads (ebpf_execve env_all_ok ctx0).ops).length = 33 ∧
    (slot_copies (ebpf_execve env_all_ok ctx0).ops)[32]? = some (32, 20480, 0) ∧
    (filn_reads (ebpf_execve env_all_ok ctx0).ops).length ≤ 33 ∧
    ∃ r, (ebpf_execve env_all_ok ctx0).committed = some r ∧
      r.user_comm 33 = stale_event_data.user_comm 33 := by
  have hi : n_iter env_all_ok ctx0 = 33 := by decide
  have hc := congrArg Result.committed
    (ebpf_execve_reserve_some env_all_ok ctx0 stale_event_data rfl)
  refine ⟨?_, ?_, (argv_loop_bounded env_all_ok ctx0).1, _, hc,
    ((argv_loop_bounded env_all_ok ctx0).2.2.2.2.2 stale_event_data _ rfl hc).1 33
      (Nat.le_refl 33)⟩
  · rw [filn_reads_ebpf_execve, hi]; simp
  · rw [slot_copies_ebpf_execve, hi]
    simp only [List.getElem?_map, List.getElem?_range (by decide : 32 < 33), Option.map_some']
    rfl

/-- C9, as stated, fails: in `env_all_fault` the pointer read of iteration 0
faults and the copy into slot 0 is attempted all the same, from the zeroed
pointer; and in `env_null_mapped`, where address 0 is readable, the loop goes
on to its bound although every pointer read faults. -/
theorem copy_attempted_after_pointer_fault :
    ((filn_reads (ebpf_execve env_all_fault ctx0).ops)[0]? = some (8192, -14) ∧
      Op.read .bpf_probe_read (.user_comm 0) 256 (.addr 0) (-14) ∈
        (ebpf_execve env_all_fault ctx0).ops) ∧
    ((filn_reads (ebpf_execve env_null_mapped ctx0).ops)[0]? = some (8192, -14) ∧
      (filn_reads (ebpf_execve env_null_mapped ctx0).ops).length = 33 ∧
      (slot_copies (ebpf_execve env_null_mapped ctx0).ops)[32]? = some (32, 0, 0)) := by
  have h1 : n_iter env_all_fault ctx0 = 1 := by decide
  have h2 : n_iter env_null_mapped ctx0 = 33 := by decide
  refine ⟨⟨?_, ?_⟩, ?_, ?_, ?_⟩
  · rw [filn_reads_ebpf_execve, h1]; rfl
  · rw [ebpf_execve_reserve_some env_all_fault ctx0 stale_event_data rfl]
    have : iters env_all_fault ctx0 33 0 = 1 := by decide
    rw [this]
    have hm : Op.read .bpf_probe_read (.user_comm 0) 256 (.addr 0) (-14) ∈
        loop_ops env_all_fault ctx0 0 1 := by
      simp only [loop_ops, iter_ops, List.append_nil, List.mem_cons]
      right; left; rfl
    simp only [List.cons_append, List.mem_cons, List.mem_append]
    right; left; right; exact hm
  · rw [filn_reads_ebpf_execve, h2]
    simp only [List.getElem?_map, List.getElem?_range (by decide : 0 < 33), Option.map_some']
    rfl
  · rw [filn_reads_ebpf_execve, h2]; simp
  · rw [slot_copies_ebpf_execve, h2]
    simp only [List.getElem?_map, List.getElem?_range (by decide : 32 < 33), Option.map_some']
    rfl

/-- C9, amended: if the copy of iteration `k` of the argv loop fails, the loop
stops at iteration `k`: exactly `k + 1` pointer reads and `k + 1` copies are
made, no argv entry after entry `k` is read and no slot after slot `k` is
written: in the committed record every slot after `k` is as the reserved slot
held it.  The result of the pointer read is not checked: when the pointer read
of iteration `k` fails, `filn` is zero and the copy into slot `k` is made from
address 0. -/
theorem argv_loop_stops_on_copy_fault (env : exec2.Env) (ctx : execve_struct) (k : Nat) :
    (∀ j a rs, (slot_copies (ebpf_execve env ctx).ops)[k]? = some (j, a, rs) → rs ≠ 0 →
      (filn_reads (ebpf_execve env ctx).ops).length = k + 1 ∧
      (slot_copies (ebpf_execve env ctx).ops).length = k + 1 ∧
      (∀ x ∈ filn_reads (ebpf_execve env ctx).ops,
        ∃ k', k' ≤ k ∧ x.1 = ptr_add ctx.argv (8 * k')) ∧
      (∀ op ∈ (ebpf_execve env ctx).ops, ∀ s, op.dst = some (.user_comm s) → s ≤ k) ∧
      (∀ ed rec, env.reserve = some ed → (ebpf_execve env ctx).committed = some rec →
        ∀ s, k < s → rec.user_comm s = ed.user_comm s)) ∧
    (∀ a r, (filn_reads (ebpf_execve env ctx).ops)[k]? = some (a, r) → r ≠ 0 →
      ∃ rs, (slot_copies (ebpf_execve env ctx).ops)[k]? = some (k, 0, rs)) := by
  constructor
  · intro j a rs hk hrs
    rw [slot_copies_ebpf_execve] at hk
    have hlt : k < n_iter env ctx := by
      by_contra hge
      rw [List.getElem?_eq_none (by simpa using hge)] at hk
      exact Option.noConfusion hk
    simp only [List.getElem?_map, List.getElem?_range hlt, Option.map_some',
      Option.some.injEq, Prod.mk.injEq] at hk
    obtain ⟨-, -, hret⟩ := hk
    have hn : n_iter env ctx = k + 1 := by
      cases hres : env.reserve with
      | none => simp [n_iter, hres] at hlt
      | some ed =>
        simp only [n_iter, hres] at hlt ⊢
        exact iters_stop env ctx 33 0 k hlt (by rw [Nat.zero_add, hret]; exact hrs)
    refine ⟨?_, ?_, ?_, ?_, ?_⟩
    · rw [filn_reads_ebpf_execve, hn]; simp
    · rw [slot_copies_ebpf_execve, hn]; simp
    · intro x hx
      rw [filn_reads_ebpf_execve, hn] at hx
      simp only [List.mem_map, List.mem_range] at hx
      obtain ⟨k', hk', rfl⟩ := hx
      exact ⟨k', by omega, rfl⟩
    · intro op hop s hs
      have := dst_ebpf_execve env ctx op hop s hs
      omega
    · intro ed rec hres hc s hs
      have hu := user_comm_ebpf_execve env ctx ed rec hres hc
      have hns : ¬ s < n_iter env ctx := by omega
      rw [hu]; simp only [hns, if_false]
  · intro a r hk hr
    rw [filn_reads_ebpf_execve] at hk
    have hlt : k < n_iter env ctx := by
      by_contra hge
      rw [List.getElem?_eq_none (by simpa using hge)] at hk
      exact Option.noConfusion hk
    simp only [List.getElem?_map, List.getElem?_range hlt, Option.map_some',
      Option.some.injEq, Prod.mk.injEq] at hk
    obtain ⟨-, hret⟩ := hk
    have hz : filn_at env ctx k = 0 := by
      simp only [ptr_ret_at, filn_at] at hret ⊢
      cases hp : env.compat_ptr (ptr_add ctx.argv (8 * k)) with
      | none => rfl
      | some v => rw [hp] at hret; exact absurd hret.symm hr
    refine ⟨copy_ret env ctx k, ?_⟩
    rw [slot_copies_ebpf_execve]
    simp [List.getElem?_range hlt, hz]

/-- Witness for C9 (amended): with one argument, the copy of iteration 1 (from
the null terminator) fails and the loop stops there; when every read faults,
the copy of iteration 0 is made from address 0. -/
theorem argv_loop_stops_on_copy_fault_witness :
    ((filn_reads (ebpf_execve env_one_arg ctx0).ops).length = 2 ∧
      (slot_copies (ebpf_execve env_one_arg ctx0).ops).length = 2) ∧
    (∃ rs, (slot_copies (ebpf_execve env_all_fault ctx0).ops)[0]? = some (0, 0, rs)) := by
  have h1 : n_iter env_one_arg ctx0 = 2 := by decide
  have h2 : n_iter env_all_fault ctx0 = 1 := by decide
  have hc : (slot_copies (ebpf_execve env_one_arg ctx0).ops)[1]? = some (1, 0, -14) := by
    rw [slot_copies_ebpf_execve, h1]
    simp only [List.getElem?_map, List.getElem?_range (by decide : 1 < 2), Option.map_some']
    rfl
  have hf : (filn_reads (ebpf_execve env_all_fault ctx0).ops)[0]? = some (8192, -14) := by
    rw [filn_reads_ebpf_execve, h2]; rfl
  have w1 := (argv_loop_stops_on_copy_fault env_one_arg ctx0 1).1 1 0 (-14) hc (by decide)
  have w2 := (argv_loop_stops_on_copy_fault env_all_fault ctx0 0).2 8192 (-14) hf (by decide)
  exact ⟨⟨w1.1, w1.2.1⟩, w2⟩

/-- C7, as stated, fails: in `env_all_fault` the read of `task->fs` faults and
the two later reads of the walk are performed nevertheless, from the zeroed
pointers; and in `env_fs_fault_low_mapped`, where those low addresses are
readable, the committed `cwd` field is not zero. -/
theorem cwd_walk_continues_after_fault :
    ((fs_read env_all_fault).1 ≠ 0 ∧
      cwd_reads (ebpf_execve env_all_fault ctx0).ops =
        [.read .bpf_probe_read_kernel .fs 8 (.addr (2 ^ 63 + 100)) (-14),
         .read .bpf_probe_read .dentry 8 (.addr 48) (-14),
         .read .bpf_probe_read .cwd 32 (.addr 56) (-14)]) ∧
    ((fs_read env_fs_fault_low_mapped).1 ≠ 0 ∧
      ∃ r, (ebpf_execve env_fs_fault_low_mapped ctx0).committed = some r ∧ r.cwd 0 = 100) := by
  refine ⟨⟨by decide, ?_⟩, by decide, ?_⟩
  · rw [cwd_reads_ebpf_execve env_all_fault ctx0 stale_event_data rfl]
    rfl
  · rw [ebpf_execve_reserve_some env_fs_fault_low_mapped ctx0 stale_event_data rfl]
    exact ⟨_, rfl, by decide⟩

/-- C7, amended: in a run of `ebpf_execve` whose reservation succeeds and in
which the read of `task->fs` or the read of `fs->pwd.dentry` fails, the later
reads of the current-directory walk are still performed: the failed read
leaves the pointer it was to fill equal to zero and the next read is made at
that pointer plus the member offset.  The record is committed, and its 32-byte
`cwd` field is all zero whenever the last read, of `dentry->d_iname`, fails;
it does when nothing is readable at the member offsets from the null
pointer. -/
theorem cwd_walk_unguarded (env : exec2.Env) (ctx : execve_struct) (ed : event_data)
    (h : env.reserve = some ed)
    (hf : (fs_read env).1 ≠ 0 ∨ (dentry_read env).1 ≠ 0) :
    ∃ fs dentry r1 r2 r3,
      cwd_reads (ebpf_execve env ctx).ops =
        [.read .bpf_probe_read_kernel .fs 8
           (.addr (ptr_add (env.task % 2 ^ 64) env.off_fs)) r1,
         .read .bpf_probe_read .dentry 8 (.addr (ptr_add fs env.off_pwd_dentry)) r2,
         .read .bpf_probe_read .cwd 32 (.addr (ptr_add dentry env.off_d_iname)) r3] ∧
      (r1 ≠ 0 ∨ r2 ≠ 0) ∧ (r1 ≠ 0 → fs = 0) ∧ (r2 ≠ 0 → dentry = 0) ∧
      ∃ r, (ebpf_execve env ctx).committed = some r ∧
        (r3 ≠ 0 → ∀ i, i < 32 → r.cwd i = 0) ∧
        (env.compat_ptr (ptr_add 0 env.off_pwd_dentry) = none →
          env.compat_mem (ptr_add 0 env.off_d_iname) 32 = none →
          ∀ i, i < 32 → r.cwd i = 0) := by
  have hfs : (fs_read env).1 ≠ 0 → (fs_read env).2 = 0 := by
    intro hne
    unfold fs_read at hne ⊢
    cases hp : env.kernel_ptr (ptr_add (env.task % 2 ^ 64) env.off_fs) with
    | none => rfl
    | some v => rw [hp] at hne; exact absurd rfl hne
  have hde : (dentry_read env).1 ≠ 0 → (dentry_read env).2 = 0 := by
    intro hne
    unfold dentry_read at hne ⊢
    cases hp : env.compat_ptr (ptr_add (fs_read env).2 env.off_pwd_dentry) with
    | none => rfl
    | some v => rw [hp] at hne; exact absurd rfl hne
  have hcw : ∀ old, env.compat_mem (ptr_add (dentry_read env).2 env.off_d_iname) 32 = none →
      ∀ i, i < 32 → (cwd_read env old).2 i = 0 := by
    intro old hp i hi
    simp [cwd_read, hp, bpf_probe_read, Buf.write, hi, zeroBuf]
  refine ⟨(fs_read env).2, (dentry_read env).2, (fs_read env).1, (dentry_read env).1,
    (cwd_read env zeroBuf).1, cwd_reads_ebpf_execve env ctx ed h, hf, hfs, hde, ?_⟩
  rw [ebpf_execve_reserve_some env ctx ed h]
  refine ⟨_, rfl, ?_, ?_⟩
  · intro hne
    apply hcw
    unfold cwd_read at hne
    cases hp : env.compat_mem (ptr_add (dentry_read env).2 env.off_d_iname) 32 with
    | none => rfl
    | some v => rw [hp] at hne; exact absurd rfl hne
  · intro hn1 hn2
    apply hcw
    have hd0 : (dentry_read env).2 = 0 := by
      rcases hf with hf | hf
      · have h0 := hfs hf
        simp only [dentry_read, h0, hn1, bpf_probe_read_ptr]
      · exact hde hf
    rw [hd0]
    exact hn2

/-- Witness for C7 (amended): when every read faults, the walk reads at
`task + 100`, then at 48 and at 56, and the committed `cwd` is zero although
the slot held stale bytes. -/
theorem cwd_walk_unguarded_witness :
    (fs_read env_all_fault).1 ≠ 0 ∧
    ∃ r, (ebpf_execve env_all_fault ctx0).committed = some r ∧
      ∀ i, i < 32 → r.cwd i = 0 := by
  obtain ⟨_, _, _, _, _, _, _, _, _, r, hr, _, hz⟩ :=
    cwd_walk_unguarded env_all_fault ctx0 stale_event_data rfl (Or.inl (by decide))
  exact ⟨by decide, r, hr, hz rfl rfl⟩

/-- C4, as stated, fails: with one argument (N = 1) the slots after slot 1
keep the stale bytes of the reserved slot; and with 40 arguments only the
first 33 slots are written, slot 33 keeping its stale bytes. -/
theorem argv_slots_not_zeroed :
    (env_one_arg.compat_ptr (ptr_add ctx0.argv 0) = some 20480 ∧
      env_one_arg.compat_ptr (ptr_add ctx0.argv 8) = some 0 ∧
      ∃ r, (ebpf_execve env_one_arg ctx0).committed = some r ∧
        r.user_comm 0 0 = 97 ∧ r.user_comm 0 1 = 0 ∧ r.user_comm 1 0 = 0 ∧
        r.user_comm 2 0 = 255) ∧
    ((∀ k, k < 40 → env_forty_args.compat_ptr (ptr_add ctx0.argv (8 * k)) = some 20480) ∧
      env_forty_args.compat_ptr (ptr_add ctx0.argv (8 * 40)) = some 0 ∧
      ∃ r, (ebpf_execve env_forty_args ctx0).committed = some r ∧
        r.user_comm 32 0 = 97 ∧ r.user_comm 33 0 = 255) := by
  have h1 : iters env_one_arg ctx0 33 0 = 2 := by decide
  have h2 : iters env_forty_args ctx0 33 0 = 33 := by decide
  refine ⟨⟨by decide, by decide, ?_⟩, by decide, by decide, ?_⟩
  · rw [ebpf_execve_reserve_some env_one_arg ctx0 stale_event_data rfl, h1]
    exact ⟨_, rfl, by decide, by decide, by decide, by decide⟩
  · rw [ebpf_execve_reserve_some env_forty_args ctx0 stale_event_data rfl, h2]
    exact ⟨_, rfl, by decide, by decide⟩

/-- C4, amended: for an execve whose argv holds `N ≤ 32` pointers followed by
a null pointer, with 256 bytes readable at each of the `N` addresses and
nothing readable at address 0, the record `ebpf_execve` commits has slots
`0 .. N-1` of `user_comm` holding, in order, the 256 bytes read at
arguments `0 .. N-1`, slot `N` all zero, and every slot after `N` unchanged
from what the reserved slot held before. -/
theorem argv_slots_up_to_terminator (env : exec2.Env) (ctx : execve_struct)
    (ed : event_data) (N : Nat) (p : Nat → Nat) (data : Nat → Buf)
    (h : env.reserve = some ed) (hN : N ≤ 32)
    (hptr : ∀ k, k < N → env.compat_ptr (ptr_add ctx.argv (8 * k)) = some (p k))
    (hdata : ∀ k, k < N → env.compat_mem (p k) 256 = some (data k))
    (hnull : env.compat_ptr (ptr_add ctx.argv (8 * N)) = some 0)
    (hzero : env.compat_mem 0 256 = none) :
    ∃ r, (ebpf_execve env ctx).committed = some r ∧
      (∀ k, k < N → ∀ b, b < 256 → r.user_comm k b = data k b) ∧
      (∀ b, b < 256 → r.user_comm N b = 0) ∧
      (∀ j, N < j → r.user_comm j = ed.user_comm j) := by
  have hok : ∀ k, k < N → copy_ret env ctx (0 + k) = 0 := by
    intro k hk
    simp [copy_ret, copy_at, filn_at, bpf_probe_read_ptr, hptr k hk, hdata k hk,
      bpf_probe_read]
  have hfail : copy_ret env ctx (0 + N) ≠ 0 := by
    simp [copy_ret, copy_at, filn_at, bpf_probe_read_ptr, hnull, hzero, bpf_probe_read, EFAULT]
  have hn : iters env ctx 33 0 = N + 1 := iters_eq env ctx 33 0 N (by omega) hok hfail
  rw [ebpf_execve_reserve_some env ctx ed h, hn]
  refine ⟨_, rfl, ?_, ?_, ?_⟩
  · intro k hk b hb
    have : k < N + 1 := by omega
    simp [this, copy_at, filn_at, bpf_probe_read_ptr, hptr k hk, hdata k hk, bpf_probe_read,
      Buf.write, hb]
  · intro b hb
    simp [copy_at, filn_at, bpf_probe_read_ptr, hnull, hzero, bpf_probe_read, Buf.write, hb,
      zeroBuf]
  · intro j hj
    have : ¬ j < N + 1 := by omega
    simp [this]

/-- Witness for C4 (amended): one argument "a", at 20480, over a stale slot:
slot 0 holds "a" and zero bytes, slot 1 is zero, later slots are unchanged. -/
theorem argv_slots_up_to_terminator_witness :
    ∃ r, (ebpf_execve env_one_arg ctx0).committed = some r ∧
      (∀ k, k < 1 → ∀ b, b < 256 → r.user_comm k b = if b = 0 then 97 else 0) ∧
      (∀ b, b < 256 → r.user_comm 1 b = 0) ∧
      (∀ j, 1 < j → r.user_comm j = stale_event_data.user_comm j) :=
  argv_slots_up_to_terminator env_one_arg ctx0 stale_event_data 1
    (fun _ => 20480) (fun _ b => if b = 0 then 97 else 0) rfl (by decide)
    (fun k hk => by
      have : k = 0 := by omega
      subst this; rfl)
    (fun _ _ => rfl) rfl rfl

end claims

end Tarian
